import Mathlib

/-!
Verification of the AIR review-service core (queue, storage, setup worker,
post-processing) against its natural-language specification.

Each definition is a shallow embedding of the corresponding Python function;
file/subprocess boundaries (json decoding, git commands) are modelled as
explicit data or oracle parameters.
-/

set_option maxHeartbeats 1000000
set_option maxRecDepth 8192

/-! ## JSON values (result of json.loads on one line) -/

/-- A parsed JSON value. Objects keep their fields in order; objects produced
by a JSON parser have pairwise distinct keys. -/
inductive Json where
  | null
  | bool (b : Bool)
  | num (n : Int)
  | str (s : String)
  | arr (items : List Json)
  | obj (fields : List (String × Json))

/-- Field lookup in a parsed JSON object, i.e. Python dict.get (first match;
parsed objects have unique keys). -/
def fieldsGet : List (String × Json) → String → Option Json
  | [], _ => none
  | (k, v) :: t, key => if k = key then some v else fieldsGet t key

/-- Python truthiness of a JSON value. -/
def jTruthy : Json → Bool
  | .null => false
  | .bool b => b
  | .num n => n != 0
  | .str s => s != ""
  | .arr l => !l.isEmpty
  | .obj f => !f.isEmpty

/-- Whether the object's field "type" holds the given string
(Python data.get, compared against a string literal). -/
def typeIs (d : List (String × Json)) (s : String) : Bool :=
  match fieldsGet d "type" with
  | some (.str v) => v == s
  | _ => false

/-! ## claude_json.extract_text_from_stream -/

/-- Texts appended while iterating a message content list
(claude_json.py lines 40-44).  A content item that is not an object makes
content_item.get raise AttributeError, which the enclosing handler catches:
iteration stops, texts appended so far are kept. -/
def contentTexts : List Json → List Json
  | [] => []
  | .obj fields :: rest =>
    if typeIs fields "text" then
      let t := (fieldsGet fields "text").getD (.str "")
      if jTruthy t then t :: contentTexts rest else contentTexts rest
    else contentTexts rest
  | _ :: _ => []

/-- Texts appended for a line of type "assistant" (claude_json.py lines
36-44).  If the "message" value is not an object, or "content" is absent or
not a list, every execution path appends nothing (either the condition is
false or the body raises before the first append). -/
def assistantTexts (d : List (String × Json)) : List Json :=
  match fieldsGet d "message" with
  | some (.obj mf) =>
    match fieldsGet mf "content" with
    | some (.arr items) => contentTexts items
    | _ => []
  | _ => []

/-- Texts appended for a line of type "content_block_delta" (claude_json.py
lines 47-50): data.get with an empty-object default, then get "text" with an
empty-string default, appended only when truthy.  A non-object "delta" value
raises inside the handler and appends nothing. -/
def deltaTexts (d : List (String × Json)) : List Json :=
  match fieldsGet d "delta" with
  | some (.obj df) =>
    let t := (fieldsGet df "text").getD (.str "")
    if jTruthy t then [t] else []
  | some _ => []
  | none => []

/-- Texts appended for one parsed line.  A non-object top level makes
data.get raise, which is caught and skipped. -/
def lineJsonTexts (j : Json) : List Json :=
  match j with
  | .obj d =>
    if typeIs d "assistant" then assistantTexts d
    else if typeIs d "content_block_delta" then deltaTexts d
    else []
  | _ => []

/-- One input line after stripping: blank (skipped), malformed
(json.loads raised, silently skipped), or a parsed JSON value. -/
inductive Line where
  | blank
  | malformed
  | json (j : Json)

/-- Texts appended for one input line. -/
def lineTexts : Line → List Json
  | .blank => []
  | .malformed => []
  | .json j => lineJsonTexts j

/-- Python str.join over the accumulated parts: concatenates when every part
is a string, raises TypeError (modelled as none) otherwise. -/
def joinTexts : List Json → Option String
  | [] => some ""
  | .str s :: t => (joinTexts t).map (fun r => s ++ r)
  | _ :: _ => none

/-- claude_json.extract_text_from_stream: concatenation, in file order, of
the texts appended per line. -/
def extract_text_from_stream (lines : List Line) : Option String :=
  joinTexts (lines.flatMap lineTexts)

/-- Concatenation of a list of strings (the expected t1 || t2 || ... ). -/
def concatAll : List String → String
  | [] => ""
  | s :: t => s ++ concatAll t

/-- A well-formed assistant text entry, as written by the reviewed model:
an object of type "text" carrying the given text. -/
def textEntry (t : String) : Json :=
  .obj [("type", .str "text"), ("text", .str t)]

/-- A well-formed assistant line whose content entries are exactly the given
texts. -/
def assistantLine (ts : List String) : Json :=
  .obj [("type", .str "assistant"),
        ("message", .obj [("content", .arr (ts.map textEntry))])]

/-- Whether a line parses to an object whose "type" field is the given
string. -/
def lineTypeIs (l : Line) (s : String) : Bool :=
  match l with
  | .json (.obj d) => typeIs d s
  | _ => false

/-! ## ReviewQueue (air/queue.py) -/

/-- A queued review request, as assembled by AirService.submit_review.
Fields that the Python dict may lack are Options (patch_count is absent when
a patchwork submission is made while patchwork is unconfigured). -/
structure QueueItem where
  review_id : String
  token : String
  tree : String
  branch : Option String
  mask : List Bool
  patchwork_series_id : Option String
  patches : Option (List String)
  hash : Option String
  patch_count : Option Nat
deriving DecidableEq, Repr

/-- Contents of the queue.json backing file at the json.load boundary:
missing (open raises FileNotFoundError), present but not valid JSON
(json.load raises JSONDecodeError), or a decoded list of items. -/
inductive QFile where
  | missing
  | corrupt
  | valid (items : List QueueItem)
deriving DecidableEq, Repr

/-- State of a ReviewQueue: the internal Queue (head = next to be got), the
queued_items persistence list, and the backing file. -/
structure ReviewQueueState where
  queue : List QueueItem
  queued_items : List QueueItem
  file : QFile
deriving DecidableEq, Repr

/-- Error raised while constructing a ReviewQueue. -/
inductive QueueLoadError where
  | jsonDecodeError
deriving DecidableEq, Repr

/-- ReviewQueue.__init__/load_queue: start empty, then replay the backing
file.  Only FileNotFoundError is caught; a file that does not decode makes
json.load raise and the constructor fail. -/
def loadQueue (file : QFile) : Except QueueLoadError ReviewQueueState :=
  match file with
  | .missing => .ok { queue := [], queued_items := [], file := file }
  | .corrupt => .error .jsonDecodeError
  | .valid items => .ok { queue := items, queued_items := items, file := file }

/-- ReviewQueue.save_queue: rewrite the backing file from queued_items. -/
def saveQueue (s : ReviewQueueState) : ReviewQueueState :=
  { s with file := .valid s.queued_items }

/-- ReviewQueue.put: append to the internal queue, append to queued_items,
save. -/
def qput (s : ReviewQueueState) (item : QueueItem) : ReviewQueueState :=
  saveQueue { s with queue := s.queue ++ [item],
                     queued_items := s.queued_items ++ [item] }

/-- Remove the first occurrence of an element (Python list.remove). -/
def eraseFirst : List QueueItem → QueueItem → List QueueItem
  | [], _ => []
  | h :: t, x => if h = x then t else h :: eraseFirst t x

/-- ReviewQueue.get on a non-empty queue: pop the head; if it occurs in
queued_items, remove its first occurrence and save.  Returns none when the
queue is empty (the timed get raised Empty). -/
def qget (s : ReviewQueueState) : Option (QueueItem × ReviewQueueState) :=
  match s.queue with
  | [] => none
  | h :: t =>
    if h ∈ s.queued_items then
      some (h, saveQueue { s with queue := t,
                                  queued_items := eraseFirst s.queued_items h })
    else
      some (h, { s with queue := t })

/-- Repeatedly get until the queue is empty, over the three state
components, collecting the items in the order returned. -/
def drainList : List QueueItem → List QueueItem → QFile → List QueueItem
  | [], _, _ => []
  | h :: t, qi, f =>
    if h ∈ qi then h :: drainList t (eraseFirst qi h) (.valid (eraseFirst qi h))
    else h :: drainList t qi f

/-- Repeatedly get until the queue is empty, collecting the items. -/
def drainAll (s : ReviewQueueState) : List QueueItem :=
  drainList s.queue s.queued_items s.file

/-- The enumerate loop of ReviewQueue.get_position and of
get_patch_count_ahead lines 103-107: the index, counting from i, of the
first item whose review_id matches. -/
def positionFrom : List QueueItem → String → Nat → Option Nat
  | [], _, _ => none
  | item :: t, review_id, i =>
    if item.review_id == review_id then some i else positionFrom t review_id (i + 1)

/-- ReviewQueue.get_position: index of the first queued item with the given
review_id, none if absent. -/
def get_position (items : List QueueItem) (review_id : String) : Option Nat :=
  positionFrom items review_id 0

/-- ReviewQueue.get_patch_count_ahead: locate the review in queued_items
(the same enumerate loop); 0 if absent, otherwise the sum of patch_count
(item.get with default 1 when the key is missing) over the items strictly
before it. -/
def get_patch_count_ahead (items : List QueueItem) (review_id : String) : Nat :=
  match positionFrom items review_id 0 with
  | none => 0
  | some p => ((items.take p).map (fun item => item.patch_count.getD 1)).sum

/-! ## ReviewStorage (air/storage.py) -/

/-- One review record in metadata.json.  Keys that may be absent from the
Python dict (timestamps, message, the two counters) are Options. -/
structure Review where
  token : String
  status : String
  date : String
  start : Option String
  startLlm : Option String
  endTime : Option String
  patchwork_series_id : Option String
  hash : Option String
  tree : Option String
  branch : Option String
  message : Option String
  patch_count : Nat
  completed_patches : Option Nat
  failed_patches : Option Nat
deriving DecidableEq, Repr

/-- Python truthiness of an optional string (used for message checks). -/
def optTruthy : Option String → Bool
  | none => false
  | some s => s != ""

/-- The in-memory reviews map together with the metadata.json backing file
(none when the file does not exist yet). -/
structure StorageState where
  reviews : List (String × Review)
  file : Option (List (String × Review))
deriving DecidableEq, Repr

/-- Dict lookup by review id. -/
def findReview : List (String × Review) → String → Option Review
  | [], _ => none
  | (k, v) :: t, id => if k = id then some v else findReview t id

/-- Dict assignment for a key already present. -/
def setReview : List (String × Review) → String → Review → List (String × Review)
  | [], _, _ => []
  | (k, v) :: t, id, r => if k = id then (k, r) :: t else (k, v) :: setReview t id r

/-- ReviewStorage.load_metadata: replace the in-memory map with the file
contents, or with the empty map when the file is missing. -/
def loadMetadata (s : StorageState) : List (String × Review) :=
  s.file.getD []

/-- ReviewStorage.update_review_status on one record: set status; stamp
start on the first transition to in-progress; stamp end on the first
transition to done or error; overwrite message only when truthy. -/
def updateRecordStatus (r : Review) (status : String) (message : Option String)
    (now : String) : Review :=
  let r1 := { r with status := status }
  let r2 := if status = "in-progress" ∧ r1.start = none
            then { r1 with start := some now } else r1
  let r3 := if (status = "done" ∨ status = "error") ∧ r2.endTime = none
            then { r2 with endTime := some now } else r2
  if optTruthy message then { r3 with message := message } else r3

/-- ReviewStorage.update_review_status: reload, mutate if the id is known
(returning early otherwise), save. -/
def update_review_status (s : StorageState) (id status : String)
    (message : Option String) (now : String) : StorageState :=
  let m := loadMetadata s
  match findReview m id with
  | none => { reviews := m, file := s.file }
  | some r =>
    let m2 := setReview m id (updateRecordStatus r status message now)
    { reviews := m2, file := some m2 }

/-- ReviewStorage.set_patch_count: reload, set patch_count and save only
when the id is known. -/
def set_patch_count (s : StorageState) (id : String) (count : Nat) : StorageState :=
  let m := loadMetadata s
  match findReview m id with
  | none => { reviews := m, file := s.file }
  | some r =>
    let m2 := setReview m id { r with patch_count := count }
    { reviews := m2, file := some m2 }

/-- ReviewStorage.set_llm_start_time: reload; when the id is known and
start-llm is still unset, stamp it and save. -/
def set_llm_start_time (s : StorageState) (id : String) (now : String) : StorageState :=
  let m := loadMetadata s
  match findReview m id with
  | none => { reviews := m, file := s.file }
  | some r =>
    if r.startLlm = none then
      let m2 := setReview m id { r with startLlm := some now }
      { reviews := m2, file := some m2 }
    else { reviews := m, file := s.file }

/-- Counter updates of mark_patch_complete (storage.py lines 186-194):
initialize the two counters when absent, increment completed, and increment
failed when not success. -/
def markInc (r0 : Review) (success : Bool) : Review :=
  let r1 := { r0 with completed_patches := some (r0.completed_patches.getD 0),
                      failed_patches := some (r0.failed_patches.getD 0) }
  let r2 := { r1 with completed_patches := some (r1.completed_patches.getD 0 + 1) }
  if success then r2
  else { r2 with failed_patches := some (r2.failed_patches.getD 0 + 1) }

/-- Terminal check of mark_patch_complete (storage.py lines 196-211),
reading the already-updated counters: when completed reaches
patch_count > 0 set the terminal status, the default failure message when
no truthy message is set, and the end stamp when unset. -/
def markFinalize (r3 : Review) (now : String) : Review :=
  let completed := r3.completed_patches.getD 0
  let failed := r3.failed_patches.getD 0
  let total := r3.patch_count
  if completed ≥ total ∧ 0 < total then
    let r4 :=
      if 0 < failed then
        { r3 with status := "error",
                  message := if optTruthy r3.message then r3.message
                             else some (toString failed ++ " of " ++ toString total
                                        ++ " patches failed review") }
      else { r3 with status := "done" }
    if r4.endTime = none then { r4 with endTime := some now } else r4
  else r3

/-- ReviewStorage.mark_patch_complete on one record: the counter updates
followed by the terminal check. -/
def markRecord (r0 : Review) (success : Bool) (now : String) : Review :=
  markFinalize (markInc r0 success) now

/-- ReviewStorage.mark_patch_complete: reload, return early when the id is
unknown, otherwise apply markRecord and save.  The patch number is accepted
but never read. -/
def mark_patch_complete (s : StorageState) (id : String) (_patchNum : Nat)
    (success : Bool) (now : String) : StorageState :=
  let m := loadMetadata s
  match findReview m id with
  | none => { reviews := m, file := s.file }
  | some r =>
    let m2 := setReview m id (markRecord r success now)
    { reviews := m2, file := some m2 }

/-! ## SetupWorker commit derivation (air/setup_worker.py) -/

/-- Git oracles used by the setup worker, at the subprocess boundary:
cat-file existence of a commit in the worker's tree, and the lines printed
by rev-list for a range (newest first, as git prints them). -/
structure GitEnv where
  commitExists : String → Bool
  revList : String → List String

/-- Whether a character list contains two consecutive dots. -/
def charsHaveDotDot : List Char → Bool
  | '.' :: '.' :: _ => true
  | _ :: t => charsHaveDotDot t
  | [] => false

/-- The characters before the first occurrence of "..". -/
def charsBeforeDotDot : List Char → List Char
  | '.' :: '.' :: _ => []
  | c :: t => c :: charsBeforeDotDot t
  | [] => []

/-- Whether the string contains the substring ".." (Python in-operator). -/
def hasDotDot (s : String) : Bool :=
  charsHaveDotDot s.data

/-- The commit checked by the verification loop in _get_commit_hashes line
204: hash_str.split with separator ".." keeps the part before the first
occurrence at index 0 when the value is a range; otherwise the loop checks
the value itself. -/
def checkedCommit (hashStr : String) : String :=
  if hasDotDot hashStr then String.mk (charsBeforeDotDot hashStr.data) else hashStr

/-- Outcome of the hash branch of _get_commit_hashes: err mirrors
update_review_status error plus write_message plus a none return, ok carries
the derived commit list and the git range. -/
inductive HashOutcome where
  | err (message : String)
  | ok (hashes : List String) (range : String)
deriving DecidableEq, Repr

/-- SetupWorker._get_commit_hashes, hash/range branch (lines 193-212): a
value containing ".." is the range, a single hash H becomes H^..H; the loop
then verifies one commit (split-left for a range), failing the request when
it is absent; otherwise _range_to_hashes reverses the rev-list output. -/
def getCommitHashesHash (git : GitEnv) (hashStr : String) : HashOutcome :=
  let gitRange := if hasDotDot hashStr then hashStr
                  else hashStr ++ "^.." ++ hashStr
  let checked := checkedCommit hashStr
  if git.commitExists checked then
    .ok (git.revList gitRange).reverse gitRange
  else
    .err ("Commit " ++ checked ++ " not found")

/-! ## SetupWorker snapshot emission (process_review lines 104-137) -/

/-- The dict queued for an LLM worker. -/
structure TempCopyInfo where
  temp_path : String
  token : String
  review_id : String
  patch_num : Nat
  commit_hash : String
deriving DecidableEq, Repr

/-- Observable actions of the per-commit loop, in program order. -/
inductive SetupEvent where
  | markComplete (patch_num : Nat) (success : Bool)
  | createTemp (patch_num : Nat) (path : String)
  | removeTemp (patch_num : Nat) (path : String)
  | putTemp (info : TempCopyInfo)
deriving DecidableEq, Repr

/-- The mask test on slot i (1-based): mask entry i-1 is present and false. -/
def maskSkips (mask : List Bool) (i : Nat) : Bool :=
  decide (i - 1 < mask.length) && !(mask.getD (i - 1) true)

/-- WorkTreeManager.create_temp_copy path: work-tree path, a dot, the first
12 characters of the hash. -/
def tempCopyPath (wtPath hash : String) : String :=
  wtPath ++ "." ++ hash.take 12

/-- Actions for slot i holding the given commit: a masked-off slot is marked
complete with success and skipped; otherwise a temp copy is created, and on
reset-hard failure it is removed and the slot skipped, else it is queued. -/
def slotEvents (mask : List Bool) (resetOk : Nat → String → Bool)
    (wtPath token reviewId : String) (i : Nat) (hash : String) : List SetupEvent :=
  if maskSkips mask i then
    [.markComplete i true]
  else
    let path := tempCopyPath wtPath hash
    if resetOk i hash then
      [.createTemp i path,
       .putTemp { temp_path := path, token := token, review_id := reviewId,
                  patch_num := i, commit_hash := hash }]
    else
      [.createTemp i path, .removeTemp i path]

/-- The loop over commit_hashes, enumerated from i. -/
def emitFrom (mask : List Bool) (resetOk : Nat → String → Bool)
    (wtPath token reviewId : String) : Nat → List String → List SetupEvent
  | _, [] => []
  | i, h :: t =>
    slotEvents mask resetOk wtPath token reviewId i h
      ++ emitFrom mask resetOk wtPath token reviewId (i + 1) t

/-- The whole emit loop of process_review, enumerate(commit_hashes, 1). -/
def emitSnapshots (mask : List Bool) (resetOk : Nat → String → Bool)
    (wtPath token reviewId : String) (commits : List String) : List SetupEvent :=
  emitFrom mask resetOk wtPath token reviewId 1 commits

/-- The slot number an event belongs to. -/
def eventSlot : SetupEvent → Nat
  | .markComplete i _ => i
  | .createTemp i _ => i
  | .removeTemp i _ => i
  | .putTemp info => info.patch_num

/-- Interpretation of one event on review storage: only mark_patch_complete
touches metadata; temp-copy creation, removal and queueing do not. -/
def applyEvent (reviewId now : String) (s : StorageState) : SetupEvent → StorageState
  | .markComplete i success => mark_patch_complete s reviewId i success now
  | .createTemp _ _ => s
  | .removeTemp _ _ => s
  | .putTemp _ => s

/-- Interpretation of an event list on review storage. -/
def applyEvents (reviewId now : String) (s : StorageState)
    (events : List SetupEvent) : StorageState :=
  events.foldl (applyEvent reviewId now) s

/-! ## AirService.submit_review (air/service.py lines 74-146) -/

/-- The submitted request body; absent keys are none. -/
structure SubmitData where
  patchwork_series_id : Option String
  patches : Option (List String)
  hash : Option String
  tree : Option String
  branch : Option String
  mask : Option (List Bool)
deriving DecidableEq, Repr

/-- Python truthiness of an optional list. -/
def optListTruthy (o : Option (List String)) : Bool :=
  match o with
  | none => false
  | some l => !l.isEmpty

/-- Service-level state touched by submit_review: the storage and the
request queue. -/
structure ServiceState where
  storage : StorageState
  rq : ReviewQueueState
deriving DecidableEq, Repr

/-- ReviewStorage.create_review: reload, insert a fresh queued record under
the generated id, save. -/
def create_review (st : StorageState) (newId token : String) (d : SubmitData)
    (now : String) : StorageState :=
  let m := loadMetadata st
  let rec0 : Review :=
    { token := token, status := "queued", date := now,
      start := none, startLlm := none, endTime := none,
      patchwork_series_id := d.patchwork_series_id, hash := d.hash,
      tree := d.tree, branch := d.branch, message := none,
      patch_count := 0, completed_patches := none, failed_patches := none }
  let m2 := m ++ [(newId, rec0)]
  { reviews := m2, file := some m2 }

/-- The patch-count estimate of submit_review lines 127-138: a patchwork
lookup when configured (falling back to 1 when the lookup raises), the list
length for raw patches, 1 for a hash; left unset for a patchwork submission
without patchwork configured. -/
def estimatePatchCount (pw : Option (String → Option Nat)) (d : SubmitData)
    (hasPatchwork hasPatches hasHash : Bool) : Option Nat :=
  if hasPatchwork then
    match pw with
    | some lookup =>
      match d.patchwork_series_id with
      | some sid => some ((lookup sid).getD 1)
      | none => some 1
    | none => none
  else if hasPatches then some (d.patches.getD []).length
  else if hasHash then some 1
  else none

/-- AirService.submit_review: validate that exactly one origin is present
and truthy and that tree is present and truthy, raising ValueError (the
error result) before any state change; on success create the review record
and put the request on the queue. -/
def submit_review (pw : Option (String → Option Nat)) (s : ServiceState)
    (d : SubmitData) (token newId now : String) :
    ServiceState × Except String String :=
  let hasPatchwork := optTruthy d.patchwork_series_id
  let hasPatches := optListTruthy d.patches
  let hasHash := optTruthy d.hash
  let count := (if hasPatchwork then 1 else 0) + (if hasPatches then 1 else 0)
               + (if hasHash then 1 else 0)
  if count ≠ 1 then
    (s, .error "Exactly one of patchwork_series_id, patches, or hash must be provided")
  else if !optTruthy d.tree then
    (s, .error "tree is required")
  else
    let st2 := create_review s.storage newId token d now
    let item : QueueItem :=
      { review_id := newId, token := token, tree := d.tree.getD "",
        branch := d.branch, mask := d.mask.getD [],
        patchwork_series_id := if hasPatchwork then d.patchwork_series_id else none,
        patches := if hasPatches then d.patches else none,
        hash := if hasHash then d.hash else none,
        patch_count := estimatePatchCount pw d hasPatchwork hasPatches hasHash }
    ({ storage := st2, rq := qput s.rq item }, .ok newId)

/-! ## Concrete sample inputs used by witnesses and counterexamples -/

/-- A concrete queue item with an explicit patch_count. -/
def itemA : QueueItem :=
  { review_id := "rev-a", token := "tok", tree := "net", branch := none,
    mask := [], patchwork_series_id := none, patches := none,
    hash := some "h1", patch_count := some 2 }

/-- A second concrete queue item. -/
def itemB : QueueItem :=
  { review_id := "rev-b", token := "tok", tree := "net", branch := none,
    mask := [], patchwork_series_id := none, patches := none,
    hash := some "h2", patch_count := some 3 }

/-- A git environment in which only commit "a" exists and rev-list prints
one line. -/
def gitOnlyA : GitEnv :=
  { commitExists := fun h => h == "a", revList := fun _ => ["b"] }

/-- A concrete in-progress review with one of two patches completed. -/
def sampleReview : Review :=
  { token := "tok", status := "in-progress", date := "2026-01-01",
    start := some "2026-01-01", startLlm := none, endTime := none,
    patchwork_series_id := none, hash := some "h1", tree := some "net",
    branch := none, message := none, patch_count := 2,
    completed_patches := some 1, failed_patches := some 0 }

/-- A concrete submission with no origin at all. -/
def emptySubmit : SubmitData :=
  { patchwork_series_id := none, patches := none, hash := none,
    tree := some "net", branch := none, mask := none }

/-- A one-review metadata map holding sampleReview under "id1". -/
def sampleMap : List (String × Review) := [("id1", sampleReview)]

/-- A storage state in sync with its backing file, holding sampleMap. -/
def sampleStore : StorageState := { reviews := sampleMap, file := some sampleMap }

/-- A service state with empty storage and an empty queue. -/
def emptyService : ServiceState :=
  { storage := { reviews := [], file := none },
    rq := { queue := [], queued_items := [], file := .missing } }

/-- The origin count computed by submit_review lines 90-96. -/
def originCount (d : SubmitData) : Nat :=
  (if optTruthy d.patchwork_series_id then 1 else 0)
    + (if optListTruthy d.patches then 1 else 0)
    + (if optTruthy d.hash then 1 else 0)

/-! ## Helper lemmas -/

theorem drainList_eq (q : List QueueItem) :
    ∀ qi f, drainList q qi f = q := by
  induction q with
  | nil => intro qi f; rfl
  | cons h t ih =>
    intro qi f
    unfold drainList
    split <;> simp [ih]

theorem foldl_qput_queued_items (items : List QueueItem) :
    ∀ s : ReviewQueueState,
      (List.foldl qput s items).queued_items = s.queued_items ++ items := by
  induction items with
  | nil => intro s; simp
  | cons h t ih => intro s; simp [ih, qput, saveQueue]

theorem foldl_qput_file (items : List QueueItem) (hne : items ≠ []) :
    ∀ s : ReviewQueueState,
      (List.foldl qput s items).file = .valid (s.queued_items ++ items) := by
  induction items with
  | nil => exact absurd rfl hne
  | cons h t ih =>
    intro s
    simp only [List.foldl_cons]
    cases t with
    | nil => simp [qput, saveQueue]
    | cons h2 t2 =>
      rw [ih (by simp)]
      simp [qput, saveQueue]

theorem positionFrom_none (items : List QueueItem) (id : String)
    (h : ∀ p ∈ items, p.review_id ≠ id) :
    ∀ k, positionFrom items id k = none := by
  induction items with
  | nil => intro k; rfl
  | cons x t ih =>
    intro k
    have hx : x.review_id ≠ id := h x (by simp)
    unfold positionFrom
    rw [if_neg (by simp [hx])]
    exact ih (fun p hp => h p (by simp [hp])) (k + 1)

theorem positionFrom_append (pre : List QueueItem) (it : QueueItem)
    (post : List QueueItem) (id : String)
    (hit : it.review_id = id) (hpre : ∀ p ∈ pre, p.review_id ≠ id) :
    ∀ k, positionFrom (pre ++ it :: post) id k = some (k + pre.length) := by
  induction pre with
  | nil => intro k; simp [positionFrom, hit]
  | cons x t ih =>
    intro k
    have hx : x.review_id ≠ id := hpre x (by simp)
    unfold positionFrom
    simp only [List.cons_append]
    rw [if_neg (by simp [hx])]
    rw [ih (fun p hp => hpre p (by simp [hp])) (k + 1)]
    simp only [List.length_cons]
    congr 1
    omega

theorem take_length_append (pre : List QueueItem) (rest : List QueueItem) :
    (pre ++ rest).take pre.length = pre := by
  induction pre with
  | nil => rfl
  | cons x t ih => simp [ih]

/-! ## Claim C3: put then reload round-trips the queue, FIFO preserved -/

/-- C3.  Putting the items k1..kK into a fresh queue (empty, backing file
absent) with no intervening get leaves the backing file holding exactly
those items in put order, and a fresh ReviewQueue constructed from that file
drains to the same items in the same order. -/
theorem queue_put_reload_roundtrip (items : List QueueItem) (hne : items ≠ []) :
    (List.foldl qput { queue := [], queued_items := [], file := .missing } items).file
      = .valid items ∧
    ∃ s2, loadQueue (.valid items) = .ok s2 ∧ drainAll s2 = items := by
  refine ⟨?_, ⟨{ queue := items, queued_items := items, file := .valid items }, rfl, ?_⟩⟩
  · rw [foldl_qput_file items hne]; rfl
  · exact drainList_eq items items (.valid items)

/-- Witness for C3 at a concrete two-item put sequence. -/
theorem queue_put_reload_roundtrip_witness :
    ([itemA, itemB] : List QueueItem) ≠ [] ∧
    ((List.foldl qput { queue := [], queued_items := [], file := .missing }
        [itemA, itemB]).file = .valid [itemA, itemB] ∧
     ∃ s2, loadQueue (.valid [itemA, itemB]) = .ok s2 ∧ drainAll s2 = [itemA, itemB]) :=
  ⟨by decide, queue_put_reload_roundtrip [itemA, itemB] (by decide)⟩

/-! ## Claim C5: peek-ahead = queue index plus patches ahead, none if absent -/

/-- C5.  For a review id absent from queued_items, get_position returns none
(and get_patch_count_ahead 0); for an id first occurring at index i,
get_position returns i and get_patch_count_ahead the sum, over the items
strictly before it, of their patch_count (each item of the queue carries a
default of 1 when the key is absent; when all earlier items carry a
patch_count the result is exactly the sum of those counts). -/
theorem peek_ahead_spec (items : List QueueItem) (id : String) :
    ((∀ p ∈ items, p.review_id ≠ id) →
       get_position items id = none ∧ get_patch_count_ahead items id = 0) ∧
    (∀ pre it post, items = pre ++ it :: post → it.review_id = id →
       (∀ p ∈ pre, p.review_id ≠ id) →
       get_position items id = some pre.length ∧
       get_patch_count_ahead items id
         = ((pre.map (fun p => p.patch_count.getD 1)).sum) ∧
       ((∀ p ∈ pre, p.patch_count ≠ none) →
         get_patch_count_ahead items id
           = (pre.map (fun p => p.patch_count.getD 0)).sum)) := by
  constructor
  · intro habs
    have h0 := positionFrom_none items id habs 0
    constructor
    · simpa [get_position] using h0
    · simp [get_patch_count_ahead, h0]
  · intro pre it post heq hit hpre
    subst heq
    have hp := positionFrom_append pre it post id hit hpre 0
    simp only [Nat.zero_add] at hp
    have hsum : get_patch_count_ahead (pre ++ it :: post) id
        = ((pre.map (fun p => p.patch_count.getD 1)).sum) := by
      simp [get_patch_count_ahead, hp, take_length_append]
    refine ⟨by simpa [get_position] using hp, hsum, ?_⟩
    intro hall
    rw [hsum]
    congr 1
    apply List.map_congr_left
    intro p hpmem
    rcases hx : p.patch_count with _ | n
    · exact absurd hx (hall p hpmem)
    · rfl

/-- Witness for C5: itemB sits at index 1 behind itemA whose patch_count
is 2. -/
theorem peek_ahead_spec_witness :
    (itemB.review_id = "rev-b") ∧
    (∀ p ∈ [itemA], p.review_id ≠ "rev-b") ∧
    (get_position [itemA, itemB] "rev-b" = some 1 ∧
     get_patch_count_ahead [itemA, itemB] "rev-b"
       = (([itemA].map (fun p => p.patch_count.getD 1)).sum) ∧
     ((∀ p ∈ [itemA], p.patch_count ≠ none) →
       get_patch_count_ahead [itemA, itemB] "rev-b"
         = (([itemA].map (fun p => p.patch_count.getD 0)).sum))) :=
  ⟨by decide, by decide,
   (peek_ahead_spec [itemA, itemB] "rev-b").2 [itemA] itemB [] rfl (by decide) (by decide)⟩

/-! ## Claim C6: corrupt queue.json on load -/

/-- Counterexample to C6.  Constructing a ReviewQueue over a backing file
whose contents are not valid JSON does not succeed with an empty queue: the
json.load error propagates out of load_queue, so startup fails; nothing
moves the file aside. -/
theorem load_queue_corrupt_raises :
    loadQueue QFile.corrupt = .error .jsonDecodeError := rfl

/-- C6 as amended.  Only a missing backing file is treated as an empty
queue; a backing file that does not decode as JSON makes loading raise the
decode error (the corrupt file is not moved aside, and the queue does not
start); a decodable file is replayed as-is. -/
theorem load_queue_amended :
    loadQueue QFile.missing
      = .ok { queue := [], queued_items := [], file := .missing } ∧
    loadQueue QFile.corrupt = .error .jsonDecodeError ∧
    ∀ items, loadQueue (.valid items)
      = .ok { queue := items, queued_items := items, file := .valid items } :=
  ⟨rfl, rfl, fun _ => rfl⟩

/-! ## Claim C2: post-processing round trip -/

theorem concatAll_filter_nonempty (ts : List String) :
    concatAll (ts.filter (fun t => t != "")) = concatAll ts := by
  induction ts with
  | nil => rfl
  | cons t rest ih =>
    by_cases ht : t = ""
    · subst ht; simpa [concatAll] using ih
    · simp [List.filter_cons, ht, concatAll, ih]

theorem contentTexts_entries (ts : List String) :
    contentTexts (ts.map textEntry)
      = (ts.filter (fun t => t != "")).map Json.str := by
  induction ts with
  | nil => rfl
  | cons t rest ih =>
    by_cases ht : t = ""
    · subst ht
      simpa [contentTexts, textEntry, typeIs, fieldsGet, jTruthy] using ih
    · simp [contentTexts, textEntry, typeIs, fieldsGet, jTruthy, ht, List.filter_cons, ih]

theorem lineTexts_assistantLine (ts : List String) :
    lineTexts (Line.json (assistantLine ts))
      = (ts.filter (fun t => t != "")).map Json.str := by
  simp [lineTexts, lineJsonTexts, assistantLine, typeIs, fieldsGet,
        assistantTexts, contentTexts_entries]

theorem joinTexts_strs (ss : List String) (rest : List Json) :
    joinTexts (ss.map Json.str ++ rest)
      = (joinTexts rest).map (fun r => concatAll ss ++ r) := by
  induction ss with
  | nil =>
    simp only [List.map_nil, List.nil_append, concatAll]
    cases h : joinTexts rest <;> simp [h]
  | cons s t ih =>
    simp only [List.map_cons, List.cons_append, joinTexts, List.append_eq]
    rw [ih]
    cases joinTexts rest <;> simp [concatAll, String.append_assoc]

theorem extract_append_inert (xs ys : List Line) (l : Line)
    (h : lineTexts l = []) :
    extract_text_from_stream (xs ++ l :: ys) = extract_text_from_stream (xs ++ ys) := by
  simp [extract_text_from_stream, List.flatMap_append, List.flatMap_cons, h]

/-- C2.  The post-processing from stream-JSON lines to text is a pure
function; on a stream whose lines are assistant objects with text entries
t1, t2, ... it produces exactly the concatenation in file order, and lines
that are blank, fail to parse, or parse to a value that is not an assistant
or content_block_delta object leave the output unchanged. -/
theorem extract_text_round_trip :
    (∀ tss : List (List String),
       extract_text_from_stream (tss.map (fun ts => Line.json (assistantLine ts)))
         = some (concatAll tss.flatten)) ∧
    (∀ xs ys, extract_text_from_stream (xs ++ Line.malformed :: ys)
         = extract_text_from_stream (xs ++ ys)) ∧
    (∀ xs ys, extract_text_from_stream (xs ++ Line.blank :: ys)
         = extract_text_from_stream (xs ++ ys)) ∧
    (∀ xs ys j, lineTypeIs (Line.json j) "assistant" = false →
       lineTypeIs (Line.json j) "content_block_delta" = false →
       extract_text_from_stream (xs ++ Line.json j :: ys)
         = extract_text_from_stream (xs ++ ys)) := by
  refine ⟨?_, ?_, ?_, ?_⟩
  · intro tss
    induction tss with
    | nil => rfl
    | cons ts rest ih =>
      simp only [List.map_cons, List.flatten_cons]
      rw [extract_text_from_stream, List.flatMap_cons, lineTexts_assistantLine]
      rw [joinTexts_strs]
      rw [extract_text_from_stream] at ih
      rw [ih]
      simp [concatAll_filter_nonempty]
      induction ts with
      | nil => simp [concatAll]
      | cons a b ihb => simp [concatAll, ihb, String.append_assoc]
  · intro xs ys; exact extract_append_inert xs ys _ rfl
  · intro xs ys; exact extract_append_inert xs ys _ rfl
  · intro xs ys j h1 h2
    apply extract_append_inert
    cases j with
    | obj d =>
      simp only [lineTypeIs] at h1 h2
      simp [lineTexts, lineJsonTexts, h1, h2]
    | null => rfl
    | bool b => rfl
    | num n => rfl
    | str s => rfl
    | arr l => rfl

/-- Witness for C2: a two-line assistant stream concatenates, and inserting
a non-matching JSON line changes nothing. -/
theorem extract_text_round_trip_witness :
    (lineTypeIs (Line.json (Json.num 3)) "assistant" = false ∧
     lineTypeIs (Line.json (Json.num 3)) "content_block_delta" = false) ∧
    extract_text_from_stream
        ([Line.json (assistantLine ["Looks ", "good"])] ++ Line.json (Json.num 3) :: [])
      = extract_text_from_stream ([Line.json (assistantLine ["Looks ", "good"])] ++ []) :=
  ⟨⟨by decide, by decide⟩,
   extract_text_round_trip.2.2.2 [Line.json (assistantLine ["Looks ", "good"])] []
     (Json.num 3) (by decide) (by decide)⟩

/-! ## Claim C10: storage mutators are no-ops for unknown review ids -/

/-- C10.  When the review id is absent from the (reloaded) metadata map,
update_review_status, set_patch_count, set_llm_start_time and
mark_patch_complete all return without mutating: for a storage state in
sync with its backing file, the state is unchanged. -/
theorem storage_unknown_id_noop
    (s : StorageState) (m : List (String × Review)) (id status : String)
    (message : Option String) (count patchNum : Nat) (success : Bool) (now : String)
    (hf : s.file = some m) (hm : s.reviews = m) (hr : findReview m id = none) :
    update_review_status s id status message now = s ∧
    set_patch_count s id count = s ∧
    set_llm_start_time s id now = s ∧
    mark_patch_complete s id patchNum success now = s := by
  cases s with
  | mk rv fl =>
    simp only at hf hm
    subst hm
    subst hf
    refine ⟨?_, ?_, ?_, ?_⟩ <;>
      simp [update_review_status, set_patch_count, set_llm_start_time,
            mark_patch_complete, loadMetadata, hr]

/-- Witness for C10 at a concrete one-review store and an unknown id. -/
theorem storage_unknown_id_noop_witness :
    (sampleStore.file = some sampleMap ∧ sampleStore.reviews = sampleMap ∧
     findReview sampleMap "nope" = none) ∧
    (update_review_status sampleStore "nope" "error" (some "m") "NOW" = sampleStore ∧
     set_patch_count sampleStore "nope" 7 = sampleStore ∧
     set_llm_start_time sampleStore "nope" "NOW" = sampleStore ∧
     mark_patch_complete sampleStore "nope" 1 false "NOW" = sampleStore) :=
  ⟨⟨rfl, rfl, by decide⟩,
   storage_unknown_id_noop sampleStore sampleMap "nope" "error" (some "m") 7 1 false "NOW"
     rfl rfl (by decide)⟩

/-! ## Claim C1: mark_patch_complete counting and terminal transition -/

theorem markInc_eval (r : Review) (success : Bool) :
    markInc r success
      = { r with completed_patches := some (r.completed_patches.getD 0 + 1),
                 failed_patches := some (r.failed_patches.getD 0
                                         + if success then 0 else 1) } := by
  cases success <;> simp [markInc]

theorem markFinalize_below (r : Review) (now : String)
    (h : ¬(r.completed_patches.getD 0 ≥ r.patch_count ∧ 0 < r.patch_count)) :
    markFinalize r now = r := by
  simp only [markFinalize]
  rw [if_neg h]

theorem markFinalize_done (r : Review) (now : String)
    (hge : r.completed_patches.getD 0 ≥ r.patch_count) (hpos : 0 < r.patch_count)
    (hf : r.failed_patches.getD 0 = 0) :
    markFinalize r now
      = { r with status := "done", endTime := some (r.endTime.getD now) } := by
  have hnf : ¬(0 < r.failed_patches.getD 0) := by omega
  simp only [markFinalize]
  rw [if_pos ⟨hge, hpos⟩]
  rw [if_neg hnf]
  dsimp only
  rcases hend : r.endTime with _ | e
  · simp
  · simp

theorem markFinalize_error (r : Review) (now : String)
    (hge : r.completed_patches.getD 0 ≥ r.patch_count) (hpos : 0 < r.patch_count)
    (hf : 0 < r.failed_patches.getD 0) :
    markFinalize r now
      = { r with status := "error",
                 message := if optTruthy r.message then r.message
                            else some (toString (r.failed_patches.getD 0) ++ " of "
                                       ++ toString r.patch_count
                                       ++ " patches failed review"),
                 endTime := some (r.endTime.getD now) } := by
  simp only [markFinalize]
  rw [if_pos ⟨hge, hpos⟩]
  rw [if_pos hf]
  dsimp only
  rcases hend : r.endTime with _ | e
  · simp
  · simp

/-- C1.  For a review with positive patch_count, mark_patch_complete
increments completed_patches (and failed_patches exactly when success is
false); the call makes the state terminal exactly when the resulting
completed count reaches the total: then status becomes "done" when no patch
failed and "error" otherwise (with the default failure message when no
truthy message was set), and end is stamped if unset; below the total,
status, end and message are untouched.  Consequently the updated record has
status "done" iff failed = 0, completed = total, total > 0 and end is set.
The map-level call stores exactly this updated record. -/
theorem mark_patch_complete_spec
    (s : StorageState) (m : List (String × Review)) (id : String) (n : Nat)
    (r : Review) (success : Bool) (now : String) (total c f : Nat)
    (hf : s.file = some m) (hr : findReview m id = some r)
    (htot : r.patch_count = total) (hpos : 0 < total)
    (hc : r.completed_patches.getD 0 = c) (hlt : c < total)
    (hfd : r.failed_patches.getD 0 = f)
    (hst : r.status ≠ "done") :
    mark_patch_complete s id n success now
      = { reviews := setReview m id (markRecord r success now),
          file := some (setReview m id (markRecord r success now)) } ∧
    (markRecord r success now).completed_patches = some (c + 1) ∧
    (markRecord r success now).failed_patches
      = some (f + if success then 0 else 1) ∧
    (c + 1 = total →
       (markRecord r success now).endTime = some (r.endTime.getD now) ∧
       (0 < f + (if success then 0 else 1) →
          (markRecord r success now).status = "error" ∧
          (optTruthy r.message = false →
            (markRecord r success now).message
              = some (toString (f + if success then 0 else 1) ++ " of "
                      ++ toString total ++ " patches failed review")) ∧
          (optTruthy r.message = true →
            (markRecord r success now).message = r.message)) ∧
       (f + (if success then 0 else 1) = 0 →
          (markRecord r success now).status = "done" ∧
          (markRecord r success now).message = r.message)) ∧
    (c + 1 < total →
       (markRecord r success now).status = r.status ∧
       (markRecord r success now).endTime = r.endTime ∧
       (markRecord r success now).message = r.message) ∧
    ((markRecord r success now).status = "done" ↔
       (f + (if success then 0 else 1) = 0) ∧ c + 1 = total ∧ 0 < total ∧
       (markRecord r success now).endTime ≠ none) := by
  have hmap : mark_patch_complete s id n success now
      = { reviews := setReview m id (markRecord r success now),
          file := some (setReview m id (markRecord r success now)) } := by
    simp [mark_patch_complete, loadMetadata, hf, hr]
  refine ⟨hmap, ?_⟩
  subst htot hc hfd
  simp only [markRecord, markInc_eval]
  by_cases hreach : r.completed_patches.getD 0 + 1 = r.patch_count
  · by_cases hfq : 0 < r.failed_patches.getD 0 + (if success then 0 else 1)
    · rw [markFinalize_error _ now (by simp; omega) (by simpa using hpos)
            (by simpa using hfq)]
      dsimp only
      refine ⟨rfl, rfl, ?_, ?_, ?_⟩
      · intro _
        refine ⟨rfl, fun _ => ⟨rfl, ?_, ?_⟩, fun h0 => absurd h0 (by omega)⟩
        · intro hmsg; simp [hmsg]
        · intro hmsg; simp [hmsg]
      · intro h; exact absurd h (by omega)
      · constructor
        · intro h; exact absurd h (by decide)
        · rintro ⟨h0, -⟩; exact absurd h0 (by omega)
    · have hz : r.failed_patches.getD 0 + (if success then 0 else 1) = 0 := by omega
      rw [markFinalize_done _ now (by simp; omega) (by simpa using hpos)
            (by simpa using hz)]
      dsimp only
      refine ⟨rfl, rfl, ?_, ?_, ?_⟩
      · intro _
        exact ⟨rfl, fun hpos2 => absurd hpos2 (by omega), fun _ => ⟨rfl, rfl⟩⟩
      · intro h; exact absurd h (by omega)
      · simp [hz, hreach, hpos]
  · have hnot : ¬(r.completed_patches.getD 0 + 1 ≥ r.patch_count ∧ 0 < r.patch_count) := by
      intro hcon
      exact hreach (by omega)
    rw [markFinalize_below _ now (by simpa using hnot)]
    dsimp only
    refine ⟨rfl, rfl, ?_, ?_, ?_⟩
    · intro h; exact absurd h hreach
    · intro _; exact ⟨rfl, rfl, rfl⟩
    · simp [hst, hreach]

/-- Witness for C1: sampleReview (1 of 2 patches complete, none failed) is
marked with a failure; the counts advance to 2 and 1 and the review turns
"error". -/
theorem mark_patch_complete_spec_witness :
    (sampleStore.file = some sampleMap ∧ findReview sampleMap "id1" = some sampleReview ∧
     sampleReview.patch_count = 2 ∧ 0 < 2 ∧
     sampleReview.completed_patches.getD 0 = 1 ∧ 1 < 2 ∧
     sampleReview.failed_patches.getD 0 = 0 ∧ sampleReview.status ≠ "done") ∧
    (markRecord sampleReview false "NOW").completed_patches = some 2 ∧
    (markRecord sampleReview false "NOW").failed_patches = some 1 ∧
    (markRecord sampleReview false "NOW").status = "error" :=
  ⟨⟨rfl, by decide, rfl, by decide, by decide, by decide, by decide, by decide⟩,
   by
     have h := mark_patch_complete_spec sampleStore sampleMap "id1" 2 sampleReview false
       "NOW" 2 1 0 rfl (by decide) rfl (by decide) (by decide) (by decide) (by decide)
       (by decide)
     refine ⟨?_, ?_, ?_⟩
     · simpa using h.2.1
     · simpa using h.2.2.1
     · exact ((h.2.2.2.1 rfl).2.1 (by decide)).1⟩

/-! ## Claim C4: hash/range endpoint verification -/

/-- C4 evaluation at the failing input.  For the range "a..b" where commit
"a" exists but commit "b" does not, the verification loop of
_get_commit_hashes checks only the left endpoint "a": the request is not
failed with a "Commit b not found" error and the patches are derived
anyway, contradicting the claim that every absent endpoint commit is fatal
before patches are derived. -/
theorem hash_range_right_endpoint_unchecked :
    gitOnlyA.commitExists "b" = false ∧
    checkedCommit "a..b" = "a" ∧
    getCommitHashesHash gitOnlyA "a..b" = .ok ["b"] "a..b" := by
  refine ⟨rfl, by decide, by decide⟩

/-! ## Claims C7 and C8: the snapshot-emission loop -/

theorem emitFrom_append (mask : List Bool) (resetOk : Nat → String → Bool)
    (wtPath token rid : String) (l1 l2 : List String) :
    ∀ k, emitFrom mask resetOk wtPath token rid k (l1 ++ l2)
      = emitFrom mask resetOk wtPath token rid k l1
        ++ emitFrom mask resetOk wtPath token rid (k + l1.length) l2 := by
  induction l1 with
  | nil => intro k; simp [emitFrom]
  | cons h t ih =>
    intro k
    show slotEvents mask resetOk wtPath token rid k h
        ++ emitFrom mask resetOk wtPath token rid (k + 1) (t ++ l2)
      = (slotEvents mask resetOk wtPath token rid k h
        ++ emitFrom mask resetOk wtPath token rid (k + 1) t)
        ++ emitFrom mask resetOk wtPath token rid (k + (t.length + 1)) l2
    have harith : k + 1 + t.length = k + (t.length + 1) := by omega
    rw [ih (k + 1), harith, List.append_assoc]

theorem eventSlot_of_mem_slotEvents (mask : List Bool) (resetOk : Nat → String → Bool)
    (wtPath token rid : String) (i : Nat) (h : String) (e : SetupEvent)
    (hm : e ∈ slotEvents mask resetOk wtPath token rid i h) : eventSlot e = i := by
  unfold slotEvents at hm
  split_ifs at hm
  · simp only [List.mem_singleton] at hm; subst hm; rfl
  · simp only [List.mem_cons, List.not_mem_nil, or_false] at hm
    rcases hm with rfl | rfl <;> rfl
  · simp only [List.mem_cons, List.not_mem_nil, or_false] at hm
    rcases hm with rfl | rfl <;> rfl

theorem eventSlot_bounds (mask : List Bool) (resetOk : Nat → String → Bool)
    (wtPath token rid : String) (l : List String) :
    ∀ k e, e ∈ emitFrom mask resetOk wtPath token rid k l →
      k ≤ eventSlot e ∧ eventSlot e < k + l.length := by
  induction l with
  | nil => intro k e he; simp [emitFrom] at he
  | cons h t ih =>
    intro k e he
    simp only [emitFrom, List.mem_append] at he
    rcases he with he | he
    · rw [eventSlot_of_mem_slotEvents mask resetOk wtPath token rid k h e he]
      simp only [List.length_cons]
      omega
    · have hb := ih (k + 1) e he
      simp only [List.length_cons]
      omega

/-- C7.  A slot whose mask entry is present and false produces exactly one
action, mark_patch_complete with success, in place in the loop; no temp
copy (snapshot) is created for that slot and nothing is queued for the LLM
for it, so no review.json artifact can exist for the slot; the surrounding
slots are processed unchanged. -/
theorem masked_slot_spec (mask : List Bool) (resetOk : Nat → String → Bool)
    (wtPath token rid : String) (pre post : List String) (h : String)
    (hlen : pre.length < mask.length)
    (hm : mask.getD pre.length true = false) :
    emitSnapshots mask resetOk wtPath token rid (pre ++ h :: post)
      = emitFrom mask resetOk wtPath token rid 1 pre
        ++ SetupEvent.markComplete (pre.length + 1) true
          :: emitFrom mask resetOk wtPath token rid (pre.length + 2) post ∧
    (∀ path, SetupEvent.createTemp (pre.length + 1) path
       ∉ emitSnapshots mask resetOk wtPath token rid (pre ++ h :: post)) ∧
    (∀ info, SetupEvent.putTemp info
         ∈ emitSnapshots mask resetOk wtPath token rid (pre ++ h :: post) →
       info.patch_num ≠ pre.length + 1) := by
  have hskip : maskSkips mask (pre.length + 1) = true := by
    have hm2 := hm
    rw [List.getD_eq_getElem mask true hlen] at hm2
    simp [maskSkips, hlen, hm2]
  have hdecomp : emitSnapshots mask resetOk wtPath token rid (pre ++ h :: post)
      = emitFrom mask resetOk wtPath token rid 1 pre
        ++ SetupEvent.markComplete (pre.length + 1) true
          :: emitFrom mask resetOk wtPath token rid (pre.length + 2) post := by
    unfold emitSnapshots
    rw [emitFrom_append mask resetOk wtPath token rid pre (h :: post) 1]
    congr 1
    have h1 : 1 + pre.length = pre.length + 1 := by omega
    rw [h1]
    simp only [emitFrom, slotEvents, hskip, if_true]
    have h2 : pre.length + 1 + 1 = pre.length + 2 := by omega
    rw [h2]
    rfl
  refine ⟨hdecomp, ?_, ?_⟩
  · intro path hmem
    rw [hdecomp] at hmem
    simp only [List.mem_append, List.mem_cons] at hmem
    rcases hmem with hmem | hmem | hmem
    · have hb := eventSlot_bounds mask resetOk wtPath token rid pre 1 _ hmem
      simp only [eventSlot] at hb
      omega
    · exact SetupEvent.noConfusion hmem
    · have hb := eventSlot_bounds mask resetOk wtPath token rid post (pre.length + 2) _ hmem
      simp only [eventSlot] at hb
      omega
  · intro info hmem heq
    rw [hdecomp] at hmem
    simp only [List.mem_append, List.mem_cons] at hmem
    rcases hmem with hmem | hmem | hmem
    · have hb := eventSlot_bounds mask resetOk wtPath token rid pre 1 _ hmem
      simp only [eventSlot, heq] at hb
      omega
    · exact SetupEvent.noConfusion hmem
    · have hb := eventSlot_bounds mask resetOk wtPath token rid post (pre.length + 2) _ hmem
      simp only [eventSlot, heq] at hb
      omega

/-- Witness for C7: with mask = [false] the first of two commits is only
marked complete with success, nothing is created or queued for it. -/
theorem masked_slot_spec_witness :
    (([] : List String).length < [false].length ∧
     [false].getD ([] : List String).length true = false) ∧
    (emitSnapshots [false] (fun _ _ => true) "/wt" "tok" "rid"
        (([] : List String) ++ "c1" :: ["c2"])
      = emitFrom [false] (fun _ _ => true) "/wt" "tok" "rid" 1 []
        ++ SetupEvent.markComplete (([] : List String).length + 1) true
          :: emitFrom [false] (fun _ _ => true) "/wt" "tok" "rid"
               (([] : List String).length + 2) ["c2"] ∧
     (∀ path, SetupEvent.createTemp (([] : List String).length + 1) path
        ∉ emitSnapshots [false] (fun _ _ => true) "/wt" "tok" "rid"
            (([] : List String) ++ "c1" :: ["c2"])) ∧
     (∀ info, SetupEvent.putTemp info
          ∈ emitSnapshots [false] (fun _ _ => true) "/wt" "tok" "rid"
              (([] : List String) ++ "c1" :: ["c2"]) →
        info.patch_num ≠ ([] : List String).length + 1)) :=
  ⟨⟨by decide, by decide⟩,
   masked_slot_spec [false] (fun _ _ => true) "/wt" "tok" "rid" [] ["c2"] "c1"
     (by decide) (by decide)⟩

/-- C8.  A slot that is not masked off and whose snapshot reset-hard fails
contributes exactly a temp-copy creation followed by its removal: no
mark_patch_complete for the slot, nothing queued for it, and interpreting
its actions leaves review storage (status, completed_patches,
failed_patches) unchanged, while the remaining slots are processed as
usual. -/
theorem reset_fail_slot_spec (mask : List Bool) (resetOk : Nat → String → Bool)
    (wtPath token rid : String) (pre post : List String) (h : String)
    (hmask : maskSkips mask (pre.length + 1) = false)
    (hreset : resetOk (pre.length + 1) h = false) :
    emitSnapshots mask resetOk wtPath token rid (pre ++ h :: post)
      = emitFrom mask resetOk wtPath token rid 1 pre
        ++ SetupEvent.createTemp (pre.length + 1) (tempCopyPath wtPath h)
          :: SetupEvent.removeTemp (pre.length + 1) (tempCopyPath wtPath h)
          :: emitFrom mask resetOk wtPath token rid (pre.length + 2) post ∧
    (∀ st now, applyEvents rid now st
        [SetupEvent.createTemp (pre.length + 1) (tempCopyPath wtPath h),
         SetupEvent.removeTemp (pre.length + 1) (tempCopyPath wtPath h)] = st) ∧
    (∀ b, SetupEvent.markComplete (pre.length + 1) b
       ∉ emitSnapshots mask resetOk wtPath token rid (pre ++ h :: post)) ∧
    (∀ info, SetupEvent.putTemp info
         ∈ emitSnapshots mask resetOk wtPath token rid (pre ++ h :: post) →
       info.patch_num ≠ pre.length + 1) := by
  have hdecomp : emitSnapshots mask resetOk wtPath token rid (pre ++ h :: post)
      = emitFrom mask resetOk wtPath token rid 1 pre
        ++ SetupEvent.createTemp (pre.length + 1) (tempCopyPath wtPath h)
          :: SetupEvent.removeTemp (pre.length + 1) (tempCopyPath wtPath h)
          :: emitFrom mask resetOk wtPath token rid (pre.length + 2) post := by
    unfold emitSnapshots
    rw [emitFrom_append mask resetOk wtPath token rid pre (h :: post) 1]
    congr 1
    have h1 : 1 + pre.length = pre.length + 1 := by omega
    rw [h1]
    simp only [emitFrom, slotEvents, hmask, hreset, Bool.false_eq_true, if_false]
    have h2 : pre.length + 1 + 1 = pre.length + 2 := by omega
    rw [h2]
    rfl
  refine ⟨hdecomp, fun st now => rfl, ?_, ?_⟩
  · intro b hmem
    rw [hdecomp] at hmem
    simp only [List.mem_append, List.mem_cons] at hmem
    rcases hmem with hmem | hmem | hmem | hmem
    · have hb := eventSlot_bounds mask resetOk wtPath token rid pre 1 _ hmem
      simp only [eventSlot] at hb
      omega
    · exact SetupEvent.noConfusion hmem
    · exact SetupEvent.noConfusion hmem
    · have hb := eventSlot_bounds mask resetOk wtPath token rid post (pre.length + 2) _ hmem
      simp only [eventSlot] at hb
      omega
  · intro info hmem heq
    rw [hdecomp] at hmem
    simp only [List.mem_append, List.mem_cons] at hmem
    rcases hmem with hmem | hmem | hmem | hmem
    · have hb := eventSlot_bounds mask resetOk wtPath token rid pre 1 _ hmem
      simp only [eventSlot, heq] at hb
      omega
    · exact SetupEvent.noConfusion hmem
    · exact SetupEvent.noConfusion hmem
    · have hb := eventSlot_bounds mask resetOk wtPath token rid post (pre.length + 2) _ hmem
      simp only [eventSlot, heq] at hb
      omega

/-- Witness for C8: one unmasked commit whose reset fails produces only the
create/remove pair and leaves a sample storage state untouched. -/
theorem reset_fail_slot_spec_witness :
    (maskSkips [] (([] : List String).length + 1) = false ∧
     (fun (_ : Nat) (_ : String) => false) (([] : List String).length + 1) "c1" = false) ∧
    (emitSnapshots [] (fun _ _ => false) "/wt" "tok" "rid"
        (([] : List String) ++ "c1" :: [])
      = emitFrom [] (fun _ _ => false) "/wt" "tok" "rid" 1 []
        ++ SetupEvent.createTemp (([] : List String).length + 1) (tempCopyPath "/wt" "c1")
          :: SetupEvent.removeTemp (([] : List String).length + 1) (tempCopyPath "/wt" "c1")
          :: emitFrom [] (fun _ _ => false) "/wt" "tok" "rid"
               (([] : List String).length + 2) [] ∧
     (∀ st now, applyEvents "rid" now st
         [SetupEvent.createTemp (([] : List String).length + 1) (tempCopyPath "/wt" "c1"),
          SetupEvent.removeTemp (([] : List String).length + 1) (tempCopyPath "/wt" "c1")] = st) ∧
     (∀ b, SetupEvent.markComplete (([] : List String).length + 1) b
        ∉ emitSnapshots [] (fun _ _ => false) "/wt" "tok" "rid"
            (([] : List String) ++ "c1" :: [])) ∧
     (∀ info, SetupEvent.putTemp info
          ∈ emitSnapshots [] (fun _ _ => false) "/wt" "tok" "rid"
              (([] : List String) ++ "c1" :: []) →
        info.patch_num ≠ ([] : List String).length + 1)) :=
  ⟨⟨by decide, rfl⟩,
   reset_fail_slot_spec [] (fun _ _ => false) "/wt" "tok" "rid" [] [] "c1"
     (by decide) rfl⟩

/-! ## Claim C9: submit_review validation and rejection frame -/

/-- C9.  submit_review accepts a submission exactly when exactly one of
patchwork_series_id, patches, hash is present and truthy and tree is
present and truthy; every rejected submission raises before any state
change, leaving storage and queue exactly as they were. -/
theorem submit_review_validation (pw : Option (String → Option Nat))
    (s : ServiceState) (d : SubmitData) (token newId now : String) :
    ((∃ rid, (submit_review pw s d token newId now).2 = .ok rid) ↔
       (originCount d = 1 ∧ optTruthy d.tree = true)) ∧
    (¬(originCount d = 1 ∧ optTruthy d.tree = true) →
       (submit_review pw s d token newId now).1 = s) := by
  simp only [submit_review, originCount]
  by_cases hc : (if optTruthy d.patchwork_series_id then 1 else 0)
      + (if optListTruthy d.patches then 1 else 0)
      + (if optTruthy d.hash then 1 else 0) = 1
  · rw [if_neg (fun hn => hn hc)]
    by_cases ht : optTruthy d.tree = true
    · rw [if_neg (by simp [ht])]
      constructor
      · constructor
        · intro _; exact ⟨hc, ht⟩
        · intro _; exact ⟨newId, rfl⟩
      · intro hcon; exact absurd ⟨hc, ht⟩ hcon
    · rw [if_pos (by simp [ht])]
      constructor
      · constructor
        · rintro ⟨rid, hrid⟩; exact absurd hrid (by simp)
        · rintro ⟨-, ht2⟩; exact absurd ht2 ht
      · intro _; rfl
  · rw [if_pos hc]
    constructor
    · constructor
      · rintro ⟨rid, hrid⟩; exact absurd hrid (by simp)
      · rintro ⟨hc2, -⟩; exact absurd hc2 hc
    · intro _; rfl

/-- Witness for C9: a submission with no origin at all is rejected and the
service state is unchanged. -/
theorem submit_review_validation_witness :
    ¬(originCount emptySubmit = 1 ∧ optTruthy emptySubmit.tree = true) ∧
    (submit_review none emptyService emptySubmit "tok" "ID" "NOW").1 = emptyService :=
  ⟨by decide,
   (submit_review_validation none emptyService emptySubmit "tok" "ID" "NOW").2 (by decide)⟩
